import Mathlib

/-!
Shallow embedding of the concurrency core of the bob agent runtime:
bounded channels (asyncio queues from state.py), the say and
request_user_input tools, the POST /message handler and /stream event
generator from server.py, and the cognitive loop driver from loop.py,
together with theorems checking the specified properties.
-/

namespace BobSpec

/-- Model of an asyncio bounded queue (state.py): a FIFO list of items
together with its capacity. All queues in state.py are created with a
positive maxsize (message_queue 100, user_input_queue 10,
response_queue 10, activity_queue 200). -/
structure BChan (α : Type) where
  maxsize : Nat
  items : List α
deriving DecidableEq, Repr

/-- Model of put_nowait: appends the item when the queue is not full,
fails with QueueFull (returns none, the item is dropped) when
0 < maxsize and qsize >= maxsize. It never suspends the caller. -/
def BChan.put_nowait (q : BChan α) (x : α) : Option (BChan α) :=
  if 0 < q.maxsize ∧ q.maxsize ≤ q.items.length then none
  else some ⟨q.maxsize, q.items ++ [x]⟩

/-- Model of get_nowait: removes and returns the oldest item, or fails
with QueueEmpty (returns none) when no item is available. -/
def BChan.get_nowait (q : BChan α) : Option (α × BChan α) :=
  match q.items with
  | [] => none
  | x :: rest => some (x, ⟨q.maxsize, rest⟩)

/-- Outcome of an awaited (blocking) put. -/
inductive PutOutcome (α : Type) where
  | completed : BChan α → PutOutcome α
  | blocked : PutOutcome α
deriving DecidableEq, Repr

/-- Model of an awaited put (the `await queue.put(content)` calls in
server.py) under no concurrent consumer: appends when a slot is free,
otherwise the producer coroutine suspends until a get frees a slot —
it does not fail and the item is not dropped. -/
def BChan.put (q : BChan α) (x : α) : PutOutcome α :=
  if 0 < q.maxsize ∧ q.maxsize ≤ q.items.length then .blocked
  else .completed ⟨q.maxsize, q.items ++ [x]⟩

/-- Model of a get bounded by a timeout (asyncio wait_for around q.get)
under no other concurrent consumer: an item already queued is returned
at once; otherwise `late` says whether a producer delivers one item
before the deadline. A result of none is the timeout outcome. -/
def BChan.getWithTimeout (q : BChan α) (late : Option α) : Option (α × BChan α) :=
  match q.items with
  | x :: rest => some (x, ⟨q.maxsize, rest⟩)
  | [] => late.map fun x => (x, ⟨q.maxsize, []⟩)

/-- Repeated put_nowait of a whole list of items, counting the puts that
fail with QueueFull (each failed item is dropped and the count advances). -/
def putAll (q : BChan α) (xs : List α) : BChan α × Nat :=
  match xs with
  | [] => (q, 0)
  | x :: rest =>
    match q.put_nowait x with
    | some q2 => putAll q2 rest
    | none =>
      let r := putAll q rest
      (r.1, r.2 + 1)

/-- General shape of repeated put_nowait starting from a queue that is
not over capacity: the free slots fill in FIFO order and every later
put reports QueueFull. -/
theorem putAll_spec (xs : List α) (C : Nat) (ys : List α)
    (hC : 0 < C) (hys : ys.length ≤ C) :
    putAll ⟨C, ys⟩ xs =
      (⟨C, ys ++ xs.take (C - ys.length)⟩, xs.length - (C - ys.length)) := by
  induction xs generalizing ys with
  | nil => simp [putAll]
  | cons x rest ih =>
    by_cases hfull : C ≤ ys.length
    · have hlen : ys.length = C := Nat.le_antisymm hys hfull
      have : (⟨C, ys⟩ : BChan α).put_nowait x = none := by
        simp [BChan.put_nowait, hC, hfull]
      simp only [putAll, this]
      rw [ih ys hys]
      simp [hlen]
    · push_neg at hfull
      have : (⟨C, ys⟩ : BChan α).put_nowait x = some ⟨C, ys ++ [x]⟩ := by
        simp [BChan.put_nowait]
        omega
      simp only [putAll, this]
      rw [ih (ys ++ [x]) (by simp; omega)]
      have h1 : C - ys.length = (C - (ys ++ [x]).length) + 1 := by simp; omega
      rw [h1]
      simp [List.take_succ_cons, List.append_assoc]

/-- Conversation turn: one entry of the messages list in loop.py
(a dict with role and content). -/
structure Turn where
  role : String
  content : String
deriving DecidableEq, Repr

/-- Python list slice xs[-n:]: the last n elements (the whole list when
it is shorter than n). -/
def takeLast (xs : List α) (n : Nat) : List α := xs.drop (xs.length - n)

/-- The CONSOLIDATE step of run_agent_loop (loop.py):
if len(messages) > 50 then messages = [messages[0]] + messages[-40:]. -/
def consolidate (messages : List Turn) : List Turn :=
  if messages.length > 50 then messages.take 1 ++ takeLast messages 40
  else messages

/-- An entry of the outbound message queue (the dicts put by tools/say.py
and tools/request_user_input.py: a type, a content string, and for
input requests a correlation identifier). -/
structure OutMsg where
  type : String
  content : String
  request_id : Option String
deriving DecidableEq, Repr

/-- The say tool (tools/say.py): enqueue the message on the outbound
queue with put_nowait when the queue is configured, returning the
full-queue warning on QueueFull; in every other case — including the
unconfigured-queue case, where nothing is enqueued at all — fall
through to the success confirmation string. -/
def say (message : String) (queue : Option (BChan OutMsg)) :
    Option (BChan OutMsg) × String :=
  match queue with
  | some q =>
    match q.put_nowait ⟨"say", message, none⟩ with
    | some q2 => (some q2, "Message sent to connected users: " ++ message.take 50 ++ "...")
    | none => (some q, "Message queue is full. Some users may not receive this message.")
  | none => (none, "Message sent to connected users: " ++ message.take 50 ++ "...")

/-- The mutable state touched by request_user_input
(tools/request_user_input.py): the outbound message queue shared with
the say tool, the response queue set by the server, and the module
global holding the pending request identifier. -/
structure ReqState where
  msg_queue : Option (BChan OutMsg)
  response_queue : Option (BChan String)
  pending_request : Option String
deriving DecidableEq, Repr

/-- clear_pending_request (tools/request_user_input.py). -/
def clear_pending_request (st : ReqState) : ReqState :=
  {st with pending_request := none}

/-- First phase of request_user_input: build the fresh identifier
req_<event-loop-time> (timeStr models the clock reading), record it as
the pending request, and put_nowait the question on the outbound
queue. Returns the updated state and, on the early-return paths
(no queue configured, or QueueFull), the returned string. Note the
pending request is recorded before the put, so it is still set when
the put fails with QueueFull. -/
def issuePhase (question timeStr : String) (st : ReqState) :
    ReqState × Option String :=
  match st.msg_queue with
  | none => (st, some "No users connected to receive the question.")
  | some q =>
    let request_id := "req_" ++ timeStr
    let st1 : ReqState := {st with pending_request := some request_id}
    match q.put_nowait ⟨"input_request", question, some request_id⟩ with
    | none => (st1, some "Could not send question - message queue full.")
    | some q2 => ({st1 with msg_queue := some q2}, none)

/-- Second phase of request_user_input: block on the response queue
bounded by the timeout. On arrival, clear the pending request and
return the response; on timeout, clear the pending request and return
the literal timeout string; when the response queue was never
configured, return an error string without touching the pending
request. -/
def waitPhase (timeout_seconds : Nat) (st : ReqState) (late : Option String) :
    ReqState × String :=
  match st.response_queue with
  | none => (st, "Response queue not initialized. Cannot receive user input.")
  | some rq =>
    match rq.getWithTimeout late with
    | some (response, rq2) =>
      ({clear_pending_request st with response_queue := some rq2}, response)
    | none =>
      (clear_pending_request st,
       "Timeout: No response received within " ++ toString timeout_seconds ++ " seconds.")

/-- The request_user_input tool (tools/request_user_input.py): publish
the question (issuePhase), then wait for the correlated response
(waitPhase). `late` models whether a user response reaches the
response queue before the deadline when the queue is empty at call
time. -/
def request_user_input (question : String) (timeout_seconds : Nat)
    (timeStr : String) (st : ReqState) (late : Option String) :
    ReqState × String :=
  match issuePhase question timeStr st with
  | (st1, some early) => (st1, early)
  | (st1, none) => waitPhase timeout_seconds st1 late

/-- Python truthiness of an optional string: present and non-empty. -/
def truthy : Option String → Bool
  | none => false
  | some s => s ≠ ""

/-- Result of the POST /message handler: either a JSON reply together
with the updated queues, or the handler coroutine suspended inside an
awaited put on a full queue. -/
inductive HandlerResult where
  | ok (user_input_queue response_queue : BChan String)
       (status : String) (request_id : Option String)
  | blockedOnPut
deriving DecidableEq, Repr

/-- The POST /message handler receive_message (server.py): a body with
a truthy request_id routes content to the response queue with an
awaited put and replies response_received; otherwise content goes to
the free-text user input queue with an awaited put and the reply is
message_queued. -/
def receive_message (content : String) (request_id : Option String)
    (user_input_queue response_queue : BChan String) : HandlerResult :=
  if truthy request_id then
    match response_queue.put content with
    | .completed rq2 => .ok user_input_queue rq2 "response_received" request_id
    | .blocked => .blockedOnPut
  else
    match user_input_queue.put content with
    | .completed ui2 => .ok ui2 response_queue "message_queued" none
    | .blocked => .blockedOnPut

/-- An entry of the thread-safe activity queue (the dicts put by
loop.py with a type of think or tool and a content string). -/
structure Activity where
  type : String
  content : String
deriving DecidableEq, Repr

/-- A server-sent event frame: event name and data payload. -/
structure SSEEvent where
  event : String
  data : String
deriving DecidableEq, Repr

/-- The first frame of every /stream session (server.py): a config
event whose data is the JSON object with max_tokens (the context
window) and model_name. -/
def configEvent (ctx : Nat) (model : String) : SSEEvent :=
  ⟨"config",
   "\x7b\"max_tokens\": " ++ toString ctx ++ ", \"model_name\": \"" ++ model ++ "\"\x7d"⟩

/-- The inner drain loop of the /stream generator: get_nowait from the
activity queue until QueueEmpty, yielding one frame per entry in FIFO
order. -/
def drainActivity (aq : BChan Activity) : List SSEEvent × BChan Activity :=
  (aq.items.map fun a => ⟨a.type, a.content⟩, ⟨aq.maxsize, []⟩)

/-- One iteration of the /stream generator body (server.py): fully
drain the activity side channel non-blocking, then one awaited get on
the primary message queue bounded by the 0.5 s timeout, yielding the
message frame on arrival and a heartbeat frame on timeout. -/
def streamIter (aq : BChan Activity) (mq : BChan OutMsg) (late : Option OutMsg) :
    List SSEEvent × BChan Activity × BChan OutMsg :=
  let drained := drainActivity aq
  match mq.getWithTimeout late with
  | some (m, mq2) => (drained.1 ++ [⟨m.type, m.content⟩], drained.2, mq2)
  | none => (drained.1 ++ [⟨"heartbeat", ""⟩], drained.2, mq)

/-- The /stream generator loop run until the client disconnects: one
schedule entry per iteration (the primary-channel arrival oracle for
that iteration); the session ends when the schedule is exhausted. -/
def streamLoop (aq : BChan Activity) (mq : BChan OutMsg) :
    List (Option OutMsg) → List SSEEvent
  | [] => []
  | late :: rest =>
    let step := streamIter aq mq late
    step.1 ++ streamLoop step.2.1 step.2.2 rest

/-- A whole /stream session (server.py stream_messages): the config
frame first, then the generator loop. -/
def streamSession (ctx : Nat) (model : String) (aq : BChan Activity)
    (mq : BChan OutMsg) (schedule : List (Option OutMsg)) : List SSEEvent :=
  configEvent ctx model :: streamLoop aq mq schedule

/-- State owned by run_agent_loop (loop.py) across iterations: the
conversation history, the one-shot first_run flag, and the heartbeat
clock (seconds). -/
structure LoopState where
  messages : List Turn
  firstRun : Bool
  lastHeartbeat : Nat
deriving DecidableEq, Repr

/-- Failures that can strike inside the loop body. keyboardInterrupt is
a BaseException not caught by the inner `except Exception` handler;
other stands for any ordinary Exception. -/
inductive Exn where
  | keyboardInterrupt
  | other
deriving DecidableEq, Repr

/-- Whether the while-True loop goes on to the next iteration or
breaks out. -/
inductive Outcome where
  | cont
  | brk
deriving DecidableEq, Repr

/-- The external environment of one loop iteration: the PAUSED flag as
read once at the top, a failure striking the polling phase (outside
the inner stream try), the outcome of the 0.5 s bounded get on the
user input queue, the wall clock (seconds), the successive history
snapshots produced by the agent stream, and a failure ending the
stream, if any. -/
structure IterEnv where
  pausedFlag : Bool
  observeExn : Option Exn
  incoming : Option String
  now : Nat
  streamSteps : List (List Turn)
  streamExn : Option Exn
deriving DecidableEq, Repr

/-- The synthetic heartbeat turn appended when no user input arrived
and the heartbeat interval elapsed (loop.py). -/
def heartbeatTurn (now : Nat) : Turn :=
  ⟨"user",
   "[HEARTBEAT " ++ toString now ++
   "] No new user input. You may continue any ongoing tasks, reflect, or wait for input."⟩

/-- The OBSERVE phase of one iteration (loop.py): poll the user input
queue with a 0.5 s timeout, advance the heartbeat clock when the 30 s
interval elapsed, then append a user turn (a non-empty message wins
over a due heartbeat) or a heartbeat turn, and compute should_run
(message, or heartbeat due, or first run). -/
def observePhase (st : LoopState) (env : IterEnv) : LoopState × Bool :=
  let hb := env.now - st.lastHeartbeat > 30
  let st1 := if hb then {st with lastHeartbeat := env.now} else st
  if truthy env.incoming then
    ({st1 with messages := st1.messages ++ [⟨"user", env.incoming.getD ""⟩]}, true)
  else if hb then
    ({st1 with messages := st1.messages ++ [heartbeatTurn env.now]}, true)
  else
    (st1, st1.firstRun)

/-- The Deciding pass of one iteration (loop.py): stream the agent,
keeping the last history snapshot it produced; a KeyboardInterrupt
raised during the stream escapes the inner `except Exception` handler
and breaks the loop; any ordinary stream failure is caught and logged,
after which the history is updated from the last snapshot (or kept
when no step completed) and the CONSOLIDATE step runs. -/
def decidingPhase (st : LoopState) (env : IterEnv) : LoopState × Outcome :=
  match env.streamExn with
  | some .keyboardInterrupt => (st, .brk)
  | _ =>
    let st1 :=
      match env.streamSteps.getLast? with
      | some ms => {st with messages := ms}
      | none => st
    ({st1 with messages := consolidate st1.messages}, .cont)

/-- What one iteration of the while-True loop did: the state carried to
the next iteration, whether the loop continues or breaks, whether a
Deciding pass began, and how long the iteration slept (milliseconds:
1000 while paused and after a caught loop-level failure, 100 when
nothing warranted a run). -/
structure IterResult where
  st : LoopState
  outcome : Outcome
  decided : Bool
  sleepMs : Nat
deriving DecidableEq, Repr

/-- One iteration of run_agent_loop (loop.py): the PAUSED flag is read
once at the top — while paused the iteration only sleeps and loops,
touching nothing. Otherwise the body runs under the outer
try/except: a KeyboardInterrupt breaks the loop, any other failure is
caught and followed by a 1 s backoff, and the observe, deciding and
consolidate phases run in order. -/
def runIteration (st : LoopState) (env : IterEnv) : IterResult :=
  if env.pausedFlag then
    ⟨st, .cont, false, 1000⟩
  else
    match env.observeExn with
    | some .keyboardInterrupt => ⟨st, .brk, false, 0⟩
    | some .other => ⟨st, .cont, false, 1000⟩
    | none =>
      let ob := observePhase st env
      if ob.2 then
        let st2 : LoopState := {ob.1 with firstRun := false}
        let dec := decidingPhase st2 env
        ⟨dec.1, dec.2, true, 0⟩
      else
        ⟨ob.1, .cont, false, 100⟩

/-- A run of successive loop iterations, one environment per
iteration, stopping early when an iteration breaks: final state and
the number of Deciding passes begun. -/
def runTrace (st : LoopState) : List IterEnv → LoopState × Nat
  | [] => (st, 0)
  | env :: rest =>
    let r := runIteration st env
    match r.outcome with
    | .brk => (r.st, if r.decided then 1 else 0)
    | .cont =>
      let t := runTrace r.st rest
      (t.1, (if r.decided then 1 else 0) + t.2)

/-- C5: for any sequence of N put_nowait operations to a bounded channel of
capacity C with N > C and no intervening gets, exactly the first C items are
retained, in FIFO order, the remaining N − C puts report Full, and a get on
the initially empty channel fails with Empty — no item is duplicated or lost
except via an explicit Full on put. -/
theorem bounded_channel_fifo_overflow (xs : List String) (C : Nat)
    (hC : 0 < C) (hN : xs.length > C) :
    (putAll ⟨C, []⟩ xs).1.items = xs.take C ∧
    (putAll ⟨C, []⟩ xs).1.items.length = C ∧
    (putAll ⟨C, []⟩ xs).2 = xs.length - C ∧
    (BChan.get_nowait (⟨C, []⟩ : BChan String)) = none := by
  have h := putAll_spec xs C [] hC (by simp)
  rw [h]
  refine ⟨by simp, ?_, by simp, by simp [BChan.get_nowait]⟩
  simp
  omega

/-- Witness for C5 at capacity 2 and three puts. -/
theorem bounded_channel_fifo_overflow_witness :
    (putAll ⟨2, []⟩ ["a", "b", "c"]).1.items = (["a", "b", "c"] : List String).take 2 ∧
    (putAll ⟨2, []⟩ ["a", "b", "c"]).2 = (["a", "b", "c"] : List String).length - 2 :=
  ⟨(bounded_channel_fifo_overflow ["a", "b", "c"] 2 (by decide) (by decide)).1,
   (bounded_channel_fifo_overflow ["a", "b", "c"] 2 (by decide) (by decide)).2.2.1⟩

/-- C6: consolidation leaves any history of length at most 50 unchanged
(idempotent once below the cap), and one pass on a history longer than 50
yields exactly 1 + 40 = 41 turns: turn 0 unchanged followed by the last 40
turns. -/
theorem consolidate_cap (ms : List Turn) :
    (ms.length ≤ 50 → consolidate ms = ms) ∧
    (ms.length > 50 →
      (consolidate ms).length = 41 ∧
      (consolidate ms).head? = ms.head? ∧
      (consolidate ms).drop 1 = takeLast ms 40) := by
  constructor
  · intro h
    unfold consolidate
    rw [if_neg (by omega)]
  · intro h
    unfold consolidate
    rw [if_pos h]
    refine ⟨?_, ?_, ?_⟩
    · simp [takeLast]
      omega
    · cases ms with
      | nil => simp at h
      | cons a t => rfl
    · cases ms with
      | nil => simp at h
      | cons a t => rfl

/-- Witness for C6: a short history is unchanged and a 51-turn history trims
to 41 turns. -/
theorem consolidate_cap_witness :
    consolidate [(⟨"system", "s"⟩ : Turn)] = [(⟨"system", "s"⟩ : Turn)] ∧
    (consolidate (List.replicate 51 (⟨"user", "x"⟩ : Turn))).length = 41 :=
  ⟨(consolidate_cap [(⟨"system", "s"⟩ : Turn)]).1 (by decide),
   ((consolidate_cap (List.replicate 51 (⟨"user", "x"⟩ : Turn))).2 (by simp)).1⟩

/-- C10: say with no outbound queue configured enqueues nothing yet returns
the success confirmation string — the message is silently dropped while the
caller observes success; only the queue-full case returns the distinct
full-queue warning string. -/
theorem say_unconfigured_silent_success (m : String) (q : BChan OutMsg)
    (hfull : 0 < q.maxsize ∧ q.maxsize ≤ q.items.length) :
    say m none = (none, "Message sent to connected users: " ++ m.take 50 ++ "...") ∧
    say m (some q) =
      (some q, "Message queue is full. Some users may not receive this message.") ∧
    "Message sent to connected users: " ++ m.take 50 ++ "..." ≠
      "Message queue is full. Some users may not receive this message." := by
  refine ⟨rfl, ?_, ?_⟩
  · simp [say, BChan.put_nowait, hfull]
  · intro hcontra
    have h2 := congrArg (fun s => (s.data.drop 8).head?) hcontra
    simp only [String.data_append] at h2
    rw [List.append_assoc] at h2
    rw [List.drop_append_of_le_length (by decide)] at h2
    rw [List.head?_append] at h2
    have hs : ("Message sent to connected users: ".data.drop 8).head? = some 's' := rfl
    rw [hs] at h2
    have h3 : some 's' =
        ("Message queue is full. Some users may not receive this message.".data.drop 8).head? := h2
    exact absurd h3 (by decide)

/-- Witness for C10 on a full 10-slot queue. -/
theorem say_unconfigured_silent_success_witness :
    say "hello" none =
      (none, "Message sent to connected users: " ++ "hello".take 50 ++ "...") ∧
    say "hello" (some ⟨10, List.replicate 10 ⟨"say", "x", none⟩⟩) =
      (some ⟨10, List.replicate 10 ⟨"say", "x", none⟩⟩,
       "Message queue is full. Some users may not receive this message.") :=
  ⟨(say_unconfigured_silent_success "hello"
      ⟨10, List.replicate 10 ⟨"say", "x", none⟩⟩ (by decide)).1,
   (say_unconfigured_silent_success "hello"
      ⟨10, List.replicate 10 ⟨"say", "x", none⟩⟩ (by decide)).2.1⟩

/-- C9: every /stream session emits the config frame (max_tokens and
model_name) first; each generator iteration emits the fully drained
side-channel frames followed by exactly one frame from the single 0.5 s
bounded read of the primary channel — the heartbeat frame whenever that read
times out, the message frame whenever a message is queued. -/
theorem stream_session_shape (ctx : Nat) (model : String) (aq : BChan Activity)
    (mq : BChan OutMsg) (schedule : List (Option OutMsg)) (late : Option OutMsg) :
    (streamSession ctx model aq mq schedule).head? = some (configEvent ctx model) ∧
    (∃ e, (streamIter aq mq late).1 = (drainActivity aq).1 ++ [e] ∧
      (mq.items = [] → late = none → e = ⟨"heartbeat", ""⟩) ∧
      (∀ m rest, mq.items = m :: rest → e = ⟨m.type, m.content⟩)) := by
  obtain ⟨C, items⟩ := mq
  refine ⟨rfl, ?_⟩
  cases items with
  | nil =>
    cases late with
    | none =>
      exact ⟨⟨"heartbeat", ""⟩, rfl, fun _ _ => rfl,
        fun m rest hm => List.noConfusion hm⟩
    | some x =>
      exact ⟨⟨x.type, x.content⟩, rfl, fun _ hl => Option.noConfusion hl,
        fun m rest hm => List.noConfusion hm⟩
  | cons m rest =>
    refine ⟨⟨m.type, m.content⟩, rfl, fun he _ => List.noConfusion he, ?_⟩
    intro m2 rest2 hm
    have hm2 : m :: rest = m2 :: rest2 := hm
    injection hm2 with h1 h2
    rw [h1]

/-- Witness for C9: one iteration over one queued think activity and an empty
primary channel emits the drained frame then a heartbeat, after the config
frame. -/
theorem stream_session_shape_witness :
    (streamSession 128000 "gpt-oss:120b" ⟨200, [⟨"think", "t"⟩]⟩ ⟨100, []⟩
        [none]).head? = some (configEvent 128000 "gpt-oss:120b") ∧
    (streamIter ⟨200, [⟨"think", "t"⟩]⟩ ⟨100, []⟩ none).1 =
      (drainActivity ⟨200, [⟨"think", "t"⟩]⟩).1 ++ [⟨"heartbeat", ""⟩] := by
  have h := stream_session_shape 128000 "gpt-oss:120b" ⟨200, [⟨"think", "t"⟩]⟩
    ⟨100, []⟩ [none] none
  refine ⟨h.1, ?_⟩
  obtain ⟨e, he, hhb, -⟩ := h.2
  rw [he, hhb rfl rfl]

/-- Shared helper: a request_user_input call made with both queues configured
and room on the outbound queue records the fresh identifier req_<time> as the
pending request, publishes the question, then resolves to the response-queue
item (clearing the pending request) or, when none arrives in time, to the
literal timeout string (also clearing the pending request). -/
theorem request_user_input_run (question timeStr : String) (timeout : Nat)
    (st : ReqState) (q : BChan OutMsg) (rq : BChan String) (late : Option String)
    (hq : st.msg_queue = some q) (hroom : q.items.length < q.maxsize)
    (hr : st.response_queue = some rq) :
    (issuePhase question timeStr st).1.pending_request = some ("req_" ++ timeStr) ∧
    (issuePhase question timeStr st).2 = none ∧
    (request_user_input question timeout timeStr st late).1.pending_request = none ∧
    (match rq.getWithTimeout late with
     | some p => (request_user_input question timeout timeStr st late).2 = p.1
     | none => (request_user_input question timeout timeStr st late).2 =
         "Timeout: No response received within " ++ toString timeout ++ " seconds.") := by
  obtain ⟨mq0, rq0, p0⟩ := st
  simp only [ReqState.msg_queue] at hq
  simp only [ReqState.response_queue] at hr
  subst hq hr
  have hput : q.put_nowait ⟨"input_request", question, some ("req_" ++ timeStr)⟩
      = some ⟨q.maxsize, q.items ++ [⟨"input_request", question, some ("req_" ++ timeStr)⟩]⟩ := by
    unfold BChan.put_nowait
    rw [if_neg (by omega)]
  refine ⟨?_, ?_, ?_, ?_⟩
  · simp [issuePhase, hput]
  · simp [issuePhase, hput]
  · cases hgt : rq.getWithTimeout late with
    | none =>
      simp [request_user_input, issuePhase, hput, waitPhase, hgt, clear_pending_request]
    | some p =>
      simp [request_user_input, issuePhase, hput, waitPhase, hgt, clear_pending_request]
  · cases hgt : rq.getWithTimeout late with
    | none =>
      simp [request_user_input, issuePhase, hput, waitPhase, hgt, clear_pending_request]
    | some p =>
      simp [request_user_input, issuePhase, hput, waitPhase, hgt, clear_pending_request]

/-- C1 counterexample: with request req_old still pending, a second
request_user_input call does not fail with Busy: it overwrites the pending
request with the fresh identifier req_t1 and completes normally, returning
the queued answer. -/
theorem second_issue_not_busy_counterexample :
    (issuePhase "second question" "t1"
      ⟨some ⟨100, []⟩, some ⟨10, []⟩, some "req_old"⟩).1.pending_request = some "req_t1" ∧
    (issuePhase "second question" "t1"
      ⟨some ⟨100, []⟩, some ⟨10, []⟩, some "req_old"⟩).1.pending_request ≠ some "req_old" ∧
    (request_user_input "second question" 300 "t1"
      ⟨some ⟨100, []⟩, some ⟨10, []⟩, some "req_old"⟩ (some "42")).2 = "42" := by
  refine ⟨by decide, by decide, by decide⟩

/-- C1 (amended): request_user_input implements no Busy failure: a second
call made while a request is pending silently overwrites the PendingRequest
with the fresh identifier and proceeds as a normal request, resolving to the
answer or the timeout string and clearing the slot on completion. -/
theorem second_issue_overwrites_pending (question timeStr : String) (timeout : Nat)
    (st : ReqState) (r : String) (q : BChan OutMsg) (rq : BChan String)
    (late : Option String)
    (hp : st.pending_request = some r)
    (hq : st.msg_queue = some q) (hroom : q.items.length < q.maxsize)
    (hr : st.response_queue = some rq) :
    (issuePhase question timeStr st).1.pending_request = some ("req_" ++ timeStr) ∧
    (request_user_input question timeout timeStr st late).1.pending_request = none ∧
    (match rq.getWithTimeout late with
     | some p => (request_user_input question timeout timeStr st late).2 = p.1
     | none => (request_user_input question timeout timeStr st late).2 =
         "Timeout: No response received within " ++ toString timeout ++ " seconds.") := by
  have h := request_user_input_run question timeStr timeout st q rq late hq hroom hr
  exact ⟨h.1, h.2.2.1, h.2.2.2⟩

/-- Witness for amended C1 with request req_old pending and answer yes queued. -/
theorem second_issue_overwrites_pending_witness :
    (issuePhase "q" "t9"
      ⟨some ⟨100, []⟩, some ⟨10, ["yes"]⟩, some "req_old"⟩).1.pending_request
      = some ("req_" ++ "t9") ∧
    (request_user_input "q" 300 "t9"
      ⟨some ⟨100, []⟩, some ⟨10, ["yes"]⟩, some "req_old"⟩ none).1.pending_request = none := by
  have h := second_issue_overwrites_pending "q" "t9" 300
    ⟨some ⟨100, []⟩, some ⟨10, ["yes"]⟩, some "req_old"⟩ "req_old" ⟨100, []⟩ ⟨10, ["yes"]⟩
    none rfl rfl (by decide) rfl
  exact ⟨h.1, h.2.1⟩

/-- C2 counterexample: POST /message carrying a correlation identifier while
the response channel is full at its capacity of 10: the awaited put neither
fails with Full nor drops the item — the handler coroutine blocks until a
consumer frees a slot. -/
theorem message_put_blocks_counterexample :
    receive_message "42" (some "req_1") ⟨10, []⟩ ⟨10, List.replicate 10 "r"⟩ =
      .blockedOnPut := by decide

/-- C2 (amended): the producers that use put_nowait (the say tool, the
question publish in request_user_input, the loop activity puts) never block:
on a full channel the put fails locally and non-fatally with Full and the
item is dropped. The POST /message handler instead awaits queue.put, which on
a full channel suspends the handler until space frees rather than failing
locally with Full. -/
theorem put_nowait_full_handler_blocks (q : BChan String) (x : String)
    (hfull : 0 < q.maxsize ∧ q.maxsize ≤ q.items.length) :
    q.put_nowait x = none ∧
    q.put x = .blocked ∧
    (∀ content rid ui, truthy rid = true →
      receive_message content rid ui q = .blockedOnPut) := by
  refine ⟨?_, ?_, ?_⟩
  · simp [BChan.put_nowait, hfull]
  · simp [BChan.put, hfull]
  · intro content rid ui hrid
    simp [receive_message, hrid, BChan.put, hfull]

/-- Witness for amended C2 on the full response channel. -/
theorem put_nowait_full_handler_blocks_witness :
    (⟨10, List.replicate 10 "r"⟩ : BChan String).put_nowait "x" = none ∧
    receive_message "c" (some "req_2") ⟨10, []⟩ ⟨10, List.replicate 10 "r"⟩ =
      .blockedOnPut := by
  have h := put_nowait_full_handler_blocks ⟨10, List.replicate 10 "r"⟩ "x" (by decide)
  exact ⟨h.1, h.2.2 "c" (some "req_2") ⟨10, []⟩ (by decide)⟩

/-- C3 counterexample: a call made while no outbound message queue is
configured returns the no-users error string, which is neither an answer
taken from the response channel (the channel holds only the answer 42) nor
the literal timeout string. -/
theorem issue_side_path_counterexample :
    (request_user_input "q" 300 "t0" ⟨none, some ⟨10, ["42"]⟩, none⟩ none).2 =
      "No users connected to receive the question." ∧
    (request_user_input "q" 300 "t0" ⟨none, some ⟨10, ["42"]⟩, none⟩ none).2 ≠ "42" ∧
    (request_user_input "q" 300 "t0" ⟨none, some ⟨10, ["42"]⟩, none⟩ none).2 ≠
      "Timeout: No response received within 300 seconds." := by decide

/-- C3 (amended): every call made with both channels configured and whose
outbound publish succeeds returns either the answer taken from the response
channel or the literal timeout string naming the configured timeout — never
raising — and clears the PendingRequest in both outcomes; the side paths
(unconfigured queues, full outbound queue) instead return fixed explanatory
strings. -/
theorem issue_answer_or_timeout (question timeStr : String) (timeout : Nat)
    (st : ReqState) (q : BChan OutMsg) (rq : BChan String) (late : Option String)
    (hq : st.msg_queue = some q) (hroom : q.items.length < q.maxsize)
    (hr : st.response_queue = some rq) :
    (request_user_input question timeout timeStr st late).1.pending_request = none ∧
    (match rq.getWithTimeout late with
     | some p => (request_user_input question timeout timeStr st late).2 = p.1
     | none => (request_user_input question timeout timeStr st late).2 =
         "Timeout: No response received within " ++ toString timeout ++ " seconds.") := by
  have h := request_user_input_run question timeStr timeout st q rq late hq hroom hr
  exact ⟨h.2.2.1, h.2.2.2⟩

/-- Witness for amended C3: with an empty response channel and no response
arriving, the call resolves to the literal timeout string and clears the
pending request. -/
theorem issue_answer_or_timeout_witness :
    (request_user_input "q" 300 "t3"
      ⟨some ⟨100, []⟩, some ⟨10, []⟩, none⟩ none).1.pending_request = none ∧
    (request_user_input "q" 300 "t3"
      ⟨some ⟨100, []⟩, some ⟨10, []⟩, none⟩ none).2 =
      "Timeout: No response received within " ++ toString 300 ++ " seconds." := by
  have h := issue_answer_or_timeout "q" "t3" 300 ⟨some ⟨100, []⟩, some ⟨10, []⟩, none⟩
    ⟨100, []⟩ ⟨10, []⟩ none rfl (by decide) rfl
  exact ⟨h.1, h.2⟩

/-- C4 counterexample: when the outbound queue is full the publish fails, the
call returns the full-queue string — and the just-created PendingRequest
survives the completed call instead of being destroyed. -/
theorem pending_survives_full_counterexample :
    (request_user_input "q" 300 "t2"
      ⟨some ⟨100, List.replicate 100 (⟨"say", "x", none⟩ : OutMsg)⟩, some ⟨10, []⟩, none⟩
      none).1.pending_request = some "req_t2" ∧
    (request_user_input "q" 300 "t2"
      ⟨some ⟨100, List.replicate 100 (⟨"say", "x", none⟩ : OutMsg)⟩, some ⟨10, []⟩, none⟩
      none).2 = "Could not send question - message queue full." := by decide

/-- C4 (amended): at most one PendingRequest exists (a single optional slot),
created when the capability fires and destroyed on response or on timeout;
but on the return path where the outbound publish of the question fails with
Full, the call completes with the PendingRequest still set — the fresh
identifier survives the call. -/
theorem pending_cleared_except_full_path (question timeStr : String) (timeout : Nat)
    (st : ReqState) (q : BChan OutMsg) (rq : BChan String) (late : Option String)
    (hq : st.msg_queue = some q) (hr : st.response_queue = some rq) :
    (q.items.length < q.maxsize →
      (request_user_input question timeout timeStr st late).1.pending_request = none) ∧
    (0 < q.maxsize ∧ q.maxsize ≤ q.items.length →
      (request_user_input question timeout timeStr st late).1.pending_request =
        some ("req_" ++ timeStr) ∧
      (request_user_input question timeout timeStr st late).2 =
        "Could not send question - message queue full.") := by
  constructor
  · intro hroom
    exact (request_user_input_run question timeStr timeout st q rq late hq hroom hr).2.2.1
  · intro hfull
    obtain ⟨mq0, rq0, p0⟩ := st
    simp only [ReqState.msg_queue] at hq
    simp only [ReqState.response_queue] at hr
    subst hq hr
    have hput : q.put_nowait ⟨"input_request", question, some ("req_" ++ timeStr)⟩ = none := by
      unfold BChan.put_nowait
      rw [if_pos hfull]
    constructor <;> simp [request_user_input, issuePhase, hput]

/-- Witness for amended C4: the pending request is cleared on the successful
publish path and survives on the full-publish path. -/
theorem pending_cleared_except_full_path_witness :
    (request_user_input "q" 300 "t4"
      ⟨some ⟨100, []⟩, some ⟨10, []⟩, none⟩ none).1.pending_request = none ∧
    (request_user_input "q" 300 "t5"
      ⟨some ⟨1, [⟨"say", "x", none⟩]⟩, some ⟨10, []⟩, none⟩ none).1.pending_request =
      some ("req_" ++ "t5") := by
  refine ⟨(pending_cleared_except_full_path "q" "t4" 300
      ⟨some ⟨100, []⟩, some ⟨10, []⟩, none⟩ ⟨100, []⟩ ⟨10, []⟩ none rfl rfl).1 (by decide),
    ((pending_cleared_except_full_path "q" "t5" 300
      ⟨some ⟨1, [⟨"say", "x", none⟩]⟩, some ⟨10, []⟩, none⟩ ⟨1, [⟨"say", "x", none⟩]⟩
      ⟨10, []⟩ none rfl rfl).2 (by decide)).1⟩

/-- C7: the pause flag is read once, at the top of an iteration, never
mid-Deciding: while every iteration observes the flag set, no Deciding pass
begins and the loop state — in particular the history — is untouched; and an
iteration that starts unpaused and enters Deciding completes the pass within
that same iteration, continuing the loop. -/
theorem paused_no_new_deciding (st : LoopState) (envs : List IterEnv) :
    ((∀ e ∈ envs, e.pausedFlag = true) → runTrace st envs = (st, 0)) ∧
    (∀ e, e.pausedFlag = false → e.observeExn = none →
      (observePhase st e).2 = true → e.streamExn ≠ some .keyboardInterrupt →
      (runIteration st e).decided = true ∧ (runIteration st e).outcome = .cont) := by
  constructor
  · intro h
    induction envs with
    | nil => rfl
    | cons e rest ih =>
      have he : e.pausedFlag = true := h e (by simp)
      have hrest : ∀ x ∈ rest, x.pausedFlag = true := fun x hx => h x (by simp [hx])
      simp [runTrace, runIteration, he, ih hrest]
  · intro e hpf hoe hob hse
    have hout : (decidingPhase {(observePhase st e).1 with firstRun := false} e).2 = .cont := by
      unfold decidingPhase
      cases hse2 : e.streamExn with
      | none => rfl
      | some x =>
        cases x with
        | keyboardInterrupt => exact absurd hse2 hse
        | other => rfl
    simp [runIteration, hpf, hoe, hob, hout]

/-- Witness for C7: two paused iterations leave the state untouched with no
Deciding pass, and an unpaused iteration with a user message completes its
Deciding pass. -/
theorem paused_no_new_deciding_witness :
    runTrace ⟨[], true, 0⟩
      [⟨true, none, some "hi", 0, [], none⟩, ⟨true, none, none, 40, [], none⟩] =
      (⟨[], true, 0⟩, 0) ∧
    (runIteration ⟨[], true, 0⟩ ⟨false, none, some "hi", 0, [], none⟩).decided = true := by
  have h := paused_no_new_deciding ⟨[], true, 0⟩
    [⟨true, none, some "hi", 0, [], none⟩, ⟨true, none, none, 40, [], none⟩]
  refine ⟨h.1 (by decide), ?_⟩
  exact (h.2 ⟨false, none, some "hi", 0, [], none⟩ rfl rfl (by decide) (by decide)).1

/-- C8: a failure raised by the decision function during a Deciding pass is
caught and the loop continues, the history touched only by the normal observe
append and consolidation; any other failure inside the loop body is caught
and followed by the 1 s backoff; the loop breaks only on an explicit
KeyboardInterrupt. -/
theorem loop_error_recovery (st : LoopState) (env : IterEnv) :
    (env.pausedFlag = false → env.observeExn = none → env.streamExn = some .other →
      (runIteration st env).outcome = .cont) ∧
    (env.pausedFlag = false → env.observeExn = none → env.streamExn = some .other →
      env.streamSteps = [] → (observePhase st env).2 = true →
      (runIteration st env).st.messages = consolidate (observePhase st env).1.messages) ∧
    (env.pausedFlag = false → env.observeExn = some .other →
      (runIteration st env).outcome = .cont ∧ (runIteration st env).sleepMs = 1000) ∧
    ((runIteration st env).outcome = .brk →
      env.observeExn = some .keyboardInterrupt ∨ env.streamExn = some .keyboardInterrupt) := by
  refine ⟨?_, ?_, ?_, ?_⟩
  · intro hpf hoe hse
    by_cases hob : (observePhase st env).2
    · simp [runIteration, hpf, hoe, hob, decidingPhase, hse]
    · simp [runIteration, hpf, hoe, hob]
  · intro hpf hoe hse hsteps hob
    simp [runIteration, hpf, hoe, hob, decidingPhase, hse, hsteps]
  · intro hpf hoe
    simp [runIteration, hpf, hoe]
  · intro hbrk
    by_cases hpf : env.pausedFlag
    · simp [runIteration, hpf] at hbrk
    · cases hoe : env.observeExn with
      | some x =>
        cases x with
        | keyboardInterrupt => exact Or.inl rfl
        | other => simp [runIteration, hpf, hoe] at hbrk
      | none =>
        by_cases hob : (observePhase st env).2
        · cases hse : env.streamExn with
          | some x =>
            cases x with
            | keyboardInterrupt => exact Or.inr rfl
            | other => simp [runIteration, hpf, hoe, hob, decidingPhase, hse] at hbrk
          | none => simp [runIteration, hpf, hoe, hob, decidingPhase, hse] at hbrk
        · simp [runIteration, hpf, hoe, hob] at hbrk

/-- Witness for C8: a stream failure with no completed step leaves the
history exactly as observe and consolidation produce it, and a loop-body
failure outside the stream is followed by the 1 s backoff. -/
theorem loop_error_recovery_witness :
    (runIteration ⟨[], true, 0⟩
        ⟨false, none, some "hi", 0, [], some .other⟩).st.messages =
      consolidate (observePhase ⟨[], true, 0⟩
        ⟨false, none, some "hi", 0, [], some .other⟩).1.messages ∧
    (runIteration ⟨[], true, 0⟩ ⟨false, some .other, none, 0, [], none⟩).sleepMs = 1000 := by
  refine ⟨(loop_error_recovery ⟨[], true, 0⟩
      ⟨false, none, some "hi", 0, [], some .other⟩).2.1 rfl rfl rfl rfl (by decide), ?_⟩
  exact ((loop_error_recovery ⟨[], true, 0⟩
      ⟨false, some .other, none, 0, [], none⟩).2.2.1 rfl rfl).2

end BobSpec
